import Mathlib

/-!
Verification of the distributed financial-processing pipeline.

Shallow embedding of the repository's core modules:
* `src/common/utils.py` — the NormalizationEngine (`normalize_financial_value`,
  `extract_quarter`), embedded as total functions over `List Char`/`String`.
  Python regular expressions are embedded by specialized matchers that follow
  the leftmost-search, greedy-with-backtracking semantics of `re.search` for
  the concrete patterns appearing in the source.
* `src/worker/services/openai_client.py` — the ExtractionAdapter
  (`extract_financial_data`, `_extract_json_from_text`,
  `_normalize_extracted_data`).  The external `json.loads` capability is a
  parameter `pj : String → Option AList`; extracted candidates are
  string-valued association lists, per the extraction capability contract.
* `src/worker/services/rabbitmq.py` — the Consumer/Dispatcher acknowledgment
  policy (`on_message`), with Python exception classes embedded as the
  inductive `PyError` and acknowledgment calls as `Signal`s.
* `src/worker/main.py` — `process_message`.
* `src/producer/main.py` and `src/common/models.py` — the submission endpoint
  and its pydantic validation.

Numeric values (`float` in the source) are embedded as exact rationals `ℚ`;
decimal literals and the power-of-ten scale factors of the source are exactly
representable, so every concrete value appearing in the spec's test vectors
is preserved by this choice.
-/

namespace DFP

/-! ### Character classes -/

/-- ASCII decimal digit, the class matched by Python `\d` on the inputs at hand. -/
def isDigitC (c : Char) : Bool := '0' ≤ c && c ≤ '9'

/-- Whitespace, the class matched by Python `\s` / stripped by `str.strip`. -/
def isSpaceC (c : Char) : Bool :=
  c = ' ' || c = '\t' || c = '\n' || c = '\r' || c = '\x0b' || c = '\x0c'

/-- Currency glyphs removed by `re.sub(r'[$£€¥]', '', value_str)`. -/
def isGlyphC (c : Char) : Bool := c = '$' || c = '£' || c = '€' || c = '¥'

def dropSpaces (l : List Char) : List Char := l.dropWhile (fun c => isSpaceC c)

/-- `str.strip()`: drop whitespace from both ends. -/
def pyStrip (l : List Char) : List Char :=
  (dropSpaces (dropSpaces l.reverse).reverse)

/-- `re.sub(r'[$£€¥]', '', s)`: delete every currency glyph. -/
def stripGlyphs (l : List Char) : List Char := l.filter (fun c => !isGlyphC c)

/-! ### Decimal digit strings -/

def charVal (c : Char) : ℕ := c.toNat - 48

/-- Value of a digit string read most-significant first. -/
def digitsVal (l : List Char) : ℕ := l.foldl (fun a c => 10 * a + charVal c) 0

def digitChar : ℕ → Char
  | 0 => '0' | 1 => '1' | 2 => '2' | 3 => '3' | 4 => '4'
  | 5 => '5' | 6 => '6' | 7 => '7' | 8 => '8' | 9 => '9'
  | _ => '0'

/-- Decimal digit list of a natural number, most-significant first. -/
def natDigitList (n : ℕ) : List Char :=
  if _h : n < 10 then [digitChar n]
  else natDigitList (n / 10) ++ [digitChar (n % 10)]
  decreasing_by exact Nat.div_lt_self (by omega) (by omega)

/-! ### The numeric matcher of `normalize_financial_value`

Embeds `re.search(r'([-+]?\d*\.?\d+)\s*(thousand|million|billion|trillion|[kmbt])?',
cleaned, re.IGNORECASE)`: leftmost position first; at a position the greedy
backtracking semantics of `\d*\.?\d+` reduce to: take the maximal digit run,
then a dot only when followed by at least one digit (else backtrack to the
digit run alone). -/

/-- Match `\d*\.?\d+` greedily at the head; return (matched chars, rest). -/
def matchNumberCore (l : List Char) : Option (List Char × List Char) :=
  let d1 := l.takeWhile (fun c => isDigitC c)
  let r1 := l.dropWhile (fun c => isDigitC c)
  match r1 with
  | '.' :: r2 =>
    let d2 := r2.takeWhile (fun c => isDigitC c)
    if d2.isEmpty then (if d1.isEmpty then none else some (d1, r1))
    else some (d1 ++ '.' :: d2, r2.dropWhile (fun c => isDigitC c))
  | _ => if d1.isEmpty then none else some (d1, r1)

/-- Match `[-+]?\d*\.?\d+` at the head (capture group 1 of the value regex). -/
def matchNumberAt : List Char → Option (List Char × List Char)
  | [] => none
  | c :: t =>
    if c = '-' || c = '+' then (matchNumberCore t).map (fun p => (c :: p.1, p.2))
    else matchNumberCore (c :: t)

/-- `re.search` position scan: leftmost position whose match succeeds. -/
def searchNum : List Char → Option (List Char × List Char)
  | [] => none
  | l@(_ :: t) =>
    match matchNumberAt l with
    | some r => some r
    | none => searchNum t

/-- Case-insensitive literal word match (`w` given lowercase); returns the
consumed input characters. -/
def matchTokenCI : List Char → List Char → Option (List Char)
  | [], _ => some []
  | _ :: _, [] => none
  | w :: ws, c :: cs =>
    if c.toLower = w then (matchTokenCI ws cs).map (fun r => c :: r) else none

/-- The scale alternation `(thousand|million|billion|trillion|[kmbt])`,
alternatives tried left to right, case-insensitive. -/
def scaleToken (l : List Char) : Option (List Char) :=
  (matchTokenCI "thousand".data l) <|>
  (matchTokenCI "million".data l) <|>
  (matchTokenCI "billion".data l) <|>
  (matchTokenCI "trillion".data l) <|>
  (match l with
   | c :: _ =>
     if c.toLower = 'k' || c.toLower = 'm' || c.toLower = 'b' || c.toLower = 't'
     then some [c] else none
   | [] => none)

/-- `\s*` then the optional scale group, applied to the text after group 1. -/
def scaleAfter (rest : List Char) : Option (List Char) := scaleToken (dropSpaces rest)

/-- The `if multiplier: multiplier = multiplier.lower(); if/elif` chain. -/
def multiplierFactor : Option (List Char) → ℕ
  | none => 1
  | some tok =>
    let t := tok.map Char.toLower
    if t = "thousand".data || t = "k".data then 1000
    else if t = "million".data || t = "m".data then 1000000
    else if t = "billion".data || t = "b".data then 1000000000
    else if t = "trillion".data || t = "t".data then 1000000000000
    else 1

/-- Exact value of a `float(...)` literal of shape `[-+]?\d*\.?\d+`, as a
(mantissa, number-of-fraction-digits) pair: value = mantissa / 10^d. -/
def parseDecNat (b : List Char) : ℕ × ℕ :=
  let ip := b.takeWhile (fun c => isDigitC c)
  let r := b.dropWhile (fun c => isDigitC c)
  let fp := match r with
    | '.' :: f => f.takeWhile (fun c => isDigitC c)
    | _ => []
  (digitsVal ip * 10 ^ fp.length + digitsVal fp, fp.length)

def parseDec (g : List Char) : ℤ × ℕ :=
  match g with
  | c :: b =>
    if c = '-' then (-((parseDecNat b).1 : ℤ), (parseDecNat b).2)
    else if c = '+' then (((parseDecNat b).1 : ℤ), (parseDecNat b).2)
    else (((parseDecNat (c :: b)).1 : ℤ), (parseDecNat (c :: b)).2)
  | [] => (((parseDecNat []).1 : ℤ), (parseDecNat []).2)

def ratOfDec (p : ℤ × ℕ) : ℚ := (p.1 : ℚ) / (10 ^ p.2 : ℚ)

/-- `normalize_financial_value` (src/common/utils.py, lines 43-83), on the
character list of the input.  Returns `0.0` when the regex finds no number;
otherwise `float(group 1)` times the scale factor of group 2. -/
def normalizeCore (l : List Char) : ℚ :=
  match searchNum (pyStrip (stripGlyphs l)) with
  | none => 0
  | some (g, rest) => ratOfDec (parseDec g) * (multiplierFactor (scaleAfter rest) : ℚ)

/-- `ParseFinancialValue` of the spec = `normalize_financial_value` of the code. -/
def normalize_financial_value (s : String) : ℚ := normalizeCore s.data

/-- The same computation kept in (mantissa, fraction-digit-count) form; used
to reason about the rational result with decidable integer arithmetic. -/
def nfvDec (s : String) : ℤ × ℕ :=
  match searchNum (pyStrip (stripGlyphs s.data)) with
  | none => (0, 0)
  | some (g, rest) =>
    ((parseDec g).1 * (multiplierFactor (scaleAfter rest) : ℤ), (parseDec g).2)

/-! ### `extract_quarter` (src/common/utils.py, lines 86-125)

Three patterns, tried in the source's fixed order, each embedded from its
regular expression with `re.search` leftmost-position semantics and
`re.IGNORECASE`:
1. `Q([1-4])\s*(\d{4})`
2. `(\d{4})\s*Q([1-4])`
3. `{name}\s+quarter\s+of\s+(\d{4})` for `name` in first/second/third/fourth.
-/

/-- The `\d{4}` atom: exactly four digit characters at the head. -/
def take4Digits : List Char → Option (List Char)
  | a :: b :: c :: d :: _ =>
    if isDigitC a && isDigitC b && isDigitC c && isDigitC d then some [a, b, c, d]
    else none
  | _ => none

def isQChar (c : Char) : Bool := c = 'Q' || c = 'q'

def isQDigit (c : Char) : Bool := c = '1' || c = '2' || c = '3' || c = '4'

/-- Pattern 1 at a fixed position: `Q([1-4])\s*(\d{4})`. -/
def pat1At : List Char → Option (Char × List Char)
  | c :: d :: r =>
    if isQChar c && isQDigit d then (take4Digits (dropSpaces r)).map (fun y => (d, y))
    else none
  | _ => none

/-- The `Q([1-4])` tail of pattern 2, after the `\s*`. -/
def pat2Tail : List Char → Option Char
  | c :: d :: _ => if isQChar c && isQDigit d then some d else none
  | _ => none

/-- Pattern 2 at a fixed position: `(\d{4})\s*Q([1-4])`. -/
def pat2At (l : List Char) : Option (Char × List Char) :=
  (take4Digits l).bind fun y =>
    (pat2Tail (dropSpaces (l.drop 4))).map fun d => (d, y)

/-- `\s+`: at least one whitespace character, then greedily the rest. -/
def reqSpaces : List Char → Option (List Char)
  | c :: t => if isSpaceC c then some (dropSpaces t) else none
  | [] => none

/-- Pattern 3 at a fixed position, for a given ordinal word:
`{name}\s+quarter\s+of\s+(\d{4})`, case-insensitive. -/
def pat3At (w : List Char) (l : List Char) : Option (List Char) :=
  (matchTokenCI w l).bind fun r1 =>
  (reqSpaces (l.drop r1.length)).bind fun r2 =>
  (matchTokenCI "quarter".data r2).bind fun r3 =>
  (reqSpaces (r2.drop r3.length)).bind fun r4 =>
  (matchTokenCI "of".data r4).bind fun r5 =>
  (reqSpaces (r4.drop r5.length)).bind fun r6 =>
  take4Digits r6

/-- `re.search` leftmost-position scan for an arbitrary fixed-position matcher. -/
def searchWith (f : List Char → Option α) : List Char → Option α
  | [] => f []
  | l@(_ :: t) =>
    match f l with
    | some r => some r
    | none => searchWith f t

/-- The canonical output string `f"Q{digit} {year}"`. -/
def canonQ (d : Char) (y : List Char) : String := ⟨'Q' :: d :: ' ' :: y⟩

/-- `extract_quarter` (src/common/utils.py): the three patterns in priority
order, the written-ordinal table iterated first → fourth. -/
def extract_quarter (s : String) : Option String :=
  match searchWith pat1At s.data with
  | some (d, y) => some (canonQ d y)
  | none =>
    match searchWith pat2At s.data with
    | some (d, y) => some (canonQ d y)
    | none =>
      match searchWith (pat3At "first".data) s.data with
      | some y => some (canonQ '1' y)
      | none =>
        match searchWith (pat3At "second".data) s.data with
        | some y => some (canonQ '2' y)
        | none =>
          match searchWith (pat3At "third".data) s.data with
          | some y => some (canonQ '3' y)
          | none =>
            match searchWith (pat3At "fourth".data) s.data with
            | some y => some (canonQ '4' y)
            | none => none

/-! ### Python exception classes and the data model -/

/-- The exception classes distinguished by the worker's dispatch policy
(src/worker/services/rabbitmq.py, src/worker/main.py).  `jsonDecodeError`
(`json.JSONDecodeError`, a `ValueError` subclass caught by its own, earlier
`except` clause) is kept separate from plain `valueError`. -/
inductive PyError : Type
  | jsonDecodeError
  | apiError
  | timeout
  | rateLimitError
  | apiConnectionError
  | invalidRequestError
  | connectionFailure
  | valueError (msg : String)
  | amqpConnectionError
  | amqpChannelError
  | otherError
deriving DecidableEq, Repr

/-- `StructuredFinancialData` (src/common/models.py); `value : ℚ` embeds the
64-bit float exactly on all values arising in this development, and
`metadata` is a string-valued association list. -/
structure StructuredFinancialData : Type where
  company : String
  metric : String
  value : ℚ
  currency : String
  quarter : String
  raw_text : String
  metadata : List (String × String)
deriving DecidableEq, Repr

/-- The extraction candidate as a parsed-JSON dictionary: an association
list of string fields (per the extraction capability contract, all five
expected fields are strings). -/
abbrev AList : Type := List (String × String)

def lookupA (d : AList) (k : String) : Option String :=
  (List.find? (fun p => p.1 = k) d).map (fun p => p.2)

/-! ### ExtractionAdapter (src/worker/services/openai_client.py)

The external `json.loads` capability is an opaque parameter
`pj : String → Option AList` (`none` embeds a raised `json.JSONDecodeError`).
-/

/-- `required_fields` of `_normalize_extracted_data`. -/
def requiredFields : List String := ["company", "metric", "value", "currency", "quarter"]

/-- `_normalize_extracted_data` (lines 148-187): check the five required
fields in order, normalize the value, fall back to `extract_quarter` on the
raw text only when the candidate quarter is falsy, and assemble the record.
The company, metric and currency strings are copied verbatim. -/
def normalize_extracted_data (d : AList) (raw_text : String) :
    Except PyError StructuredFinancialData :=
  match List.find? (fun f => (lookupA d f).isNone) requiredFields with
  | some f => .error (.valueError ("Missing required field " ++ f ++ " in extracted data"))
  | none =>
    match lookupA d "company", lookupA d "metric", lookupA d "value",
          lookupA d "currency", lookupA d "quarter" with
    | some co, some me, some va, some cu, some qu =>
      let normalized_value := normalize_financial_value va
      let quarter := if qu = "" then (extract_quarter raw_text).getD "Unknown" else qu
      .ok { company := co, metric := me, value := normalized_value, currency := cu,
            quarter := quarter, raw_text := raw_text,
            metadata := [("original_value", va)] }
    | _, _, _, _, _ =>
      .error (.valueError "Missing required field in extracted data")

def openBrace : Char := Char.ofNat 123

def closeBrace : Char := Char.ofNat 125

/-- `str.find(c)`: index of the first occurrence, `None` embedding -1. -/
def findChar (c : Char) (l : List Char) : Option ℕ := List.findIdx? (fun x => x = c) l

/-- `str.rfind(c)`: index of the last occurrence. -/
def rfindChar (c : Char) (l : List Char) : Option ℕ :=
  (List.findIdx? (fun x => x = c) l.reverse).map (fun i => l.length - 1 - i)

/-- `_extract_json_from_text` (lines 121-146): slice from the first `{` to
the last `}` and parse that; a missing brace, inverted indices, or a failed
parse of the slice raise `ValueError`. -/
def extract_json_from_text (pj : String → Option AList) (text : List Char) :
    Except PyError AList :=
  match findChar openBrace text, rfindChar closeBrace text with
  | some s, some e =>
    if s > e then .error (.valueError "Could not extract JSON from OpenAI response")
    else
      match pj ⟨(text.drop s).take (e + 1 - s)⟩ with
      | some d => .ok d
      | none => .error (.valueError "Could not parse extracted JSON")
  | _, _ => .error (.valueError "Could not extract JSON from OpenAI response")

/-- The brace-slice substring `text[start_idx : end_idx + 1]`, when the
braces exist in the right order. -/
def braceSlice (text : List Char) : Option (List Char) :=
  match findChar openBrace text, rfindChar closeBrace text with
  | some s, some e => if s > e then none else some ((text.drop s).take (e + 1 - s))
  | _, _ => none

/-- The JSON-locating phase of `extract_financial_data` (lines 67-78): strip
the response content, attempt a direct parse, fall back to
`_extract_json_from_text`, then hand the dictionary to
`_normalize_extracted_data`. -/
def extract_financial_data (pj : String → Option AList) (respText : String)
    (raw_text : String) : Except PyError StructuredFinancialData :=
  let t : String := ⟨pyStrip respText.data⟩
  match pj t with
  | some d => normalize_extracted_data d raw_text
  | none =>
    match extract_json_from_text pj t.data with
    | .ok d => normalize_extracted_data d raw_text
    | .error e => .error e

/-! ### Worker handler (src/worker/main.py, `process_message`)

The deserialized message dictionary is embedded by its two accessed keys;
`message.get` yields `none` for an absent key.  The `try/except` of
`process_message` re-raises every caught class unchanged, so it is the
identity on the error flow and is not reproduced. -/

structure WorkerMessage : Type where
  request_id : Option String
  raw_text : Option String
deriving DecidableEq, Repr

/-- `process_message` (lines 25-75): a missing or empty `raw_text` returns
without invoking extraction or storage; otherwise extract, attach the
request id to the metadata, and store. -/
def process_message (extract : String → Except PyError StructuredFinancialData)
    (store : StructuredFinancialData → Except PyError String)
    (msg : WorkerMessage) : Except PyError Unit :=
  let request_id := msg.request_id.getD "unknown"
  match msg.raw_text with
  | none => .ok ()
  | some t =>
    if t = "" then .ok ()
    else
      match extract t with
      | .error e => .error e
      | .ok sd =>
        match store { sd with metadata := sd.metadata ++ [("request_id", request_id)] } with
        | .error e => .error e
        | .ok _ => .ok ()

/-! ### Consumer/Dispatcher acknowledgment policy
(src/worker/services/rabbitmq.py, `consume.on_message`, lines 99-140) -/

/-- One broker acknowledgment call. -/
inductive Signal : Type
  | ack
  | nackRequeue
  | nackDiscard
deriving DecidableEq, Repr

/-- The `except` clause chain of `on_message`, in source order: the emitted
signals on a caught class, or the propagated error for AMQP errors and any
class with no matching clause. -/
def classifyCatch (e : PyError) : Except PyError (List Signal) :=
  match e with
  | .jsonDecodeError => .ok [.nackDiscard]
  | .apiError | .timeout | .rateLimitError | .apiConnectionError
  | .invalidRequestError => .ok [.nackRequeue]
  | .connectionFailure => .ok [.nackRequeue]
  | .valueError _ => .ok [.nackDiscard]
  | .amqpConnectionError | .amqpChannelError => .error e
  | .otherError => .error e

/-- `on_message`: deserialize the body, run the callback, `basic_ack` on
success; a raise from either step goes to the clause chain.  The result
lists every acknowledgment call made for the delivery. -/
def on_message (deser : String → Except PyError WorkerMessage)
    (callback : WorkerMessage → Except PyError Unit) (body : String) :
    Except PyError (List Signal) :=
  match deser body with
  | .error e => classifyCatch e
  | .ok msg =>
    match callback msg with
    | .ok _ => .ok [.ack]
    | .error e => classifyCatch e

/-- The failure classes the spec calls transient for the dispatcher:
extraction service unavailable or rate-limited, storage unavailable. -/
def transientCause (e : PyError) : Bool :=
  match e with
  | .apiError | .timeout | .rateLimitError | .apiConnectionError
  | .connectionFailure => true
  | _ => false

/-- The failure classes the spec calls permanent: validation/value errors. -/
def permanentCause (e : PyError) : Bool :=
  match e with
  | .valueError _ => true
  | _ => false

/-! ### Producer submission endpoint (src/producer/main.py, src/common/models.py) -/

/-- An incoming request body for the submission endpoint: each field either
absent (`none`) or a value of the declared type. -/
structure SubmitRequest : Type where
  raw_text : Option String
  metadata : Option (List (String × String))
deriving DecidableEq, Repr

/-- `RawFinancialData` (src/common/models.py, lines 8-13): `raw_text` is a
required plain `str` with no length constraint; `metadata` is optional. -/
structure RawFinancialData : Type where
  raw_text : String
  metadata : Option (List (String × String))
deriving DecidableEq, Repr

/-- Pydantic validation of `RawFinancialData`: reject only when the required
`raw_text` field is absent. -/
def validateRawFinancialData (r : SubmitRequest) : Option RawFinancialData :=
  (r.raw_text).map (fun t => { raw_text := t, metadata := r.metadata })

/-- The published message `{request_id, raw_text, metadata}`. -/
structure ProducerEnvelope : Type where
  request_id : String
  raw_text : String
  metadata : Option (List (String × String))
deriving DecidableEq, Repr

structure SubmitResponse : Type where
  message : String
  status : String
  request_id : String
deriving DecidableEq, Repr

/-- An HTTP error response (`HTTPException(status_code, detail)`). -/
structure HttpError : Type where
  status_code : ℕ
deriving DecidableEq, Repr

/-- The envelope built by `submit_financial_data` from a validated body and
the generated uuid. -/
def buildEnvelope (freshId : String) (data : RawFinancialData) : ProducerEnvelope :=
  { request_id := freshId, raw_text := data.raw_text, metadata := data.metadata }

/-- `submit_financial_data` (src/producer/main.py, lines 68-113): publish the
envelope and return the request id; `AMQPConnectionError` becomes HTTP 503,
any other raise becomes HTTP 500.  The uuid generation and the broker are
opaque capabilities passed as parameters. -/
def submit_financial_data (freshId : String)
    (publish : ProducerEnvelope → Except PyError Unit) (data : RawFinancialData) :
    Except HttpError SubmitResponse :=
  match publish (buildEnvelope freshId data) with
  | .ok _ =>
    .ok { message := "Financial data submitted for processing", status := "success",
          request_id := freshId }
  | .error .amqpConnectionError => .error { status_code := 503 }
  | .error _ => .error { status_code := 500 }

/-! ### Concrete candidates for the end-to-end and quarter-fallback scenarios -/

/-- The end-to-end scenario's extraction candidate. -/
def exampleCandidate : AList :=
  [("company", "Company XYZ"), ("metric", "Net Income"), ("value", "5.3 million"),
   ("currency", "usd"), ("quarter", "Q1 2024")]

def exampleRawText : String :=
  "Company XYZ reported a net income of $5.3 million for Q1 2024."

/-- A candidate whose quarter string matches no period pattern, paired with a
raw text that does contain a period. -/
def c5Candidate : AList :=
  [("company", "C"), ("metric", "m"), ("value", "1"), ("currency", "USD"),
   ("quarter", "eventually")]

def c5RawText : String := "Q2 2025 report"

/-! ### Decimal rendering of numeric results (for the round-trip property) -/

/-- Left-pad a digit string with zeros to length at least `k`. -/
def padLeftZeros (k : ℕ) (l : List Char) : List Char :=
  List.replicate (k - l.length) '0' ++ l

/-- The unsigned decimal body of the rendering: the mantissa digits with the
point inserted `d` places from the right (absent when `d = 0`). -/
def renderBody (n : ℕ) (d : ℕ) : List Char :=
  let ds := padLeftZeros (d + 1) (natDigitList n)
  if d = 0 then ds else ds.take (ds.length - d) ++ '.' :: ds.drop (ds.length - d)

/-- Plain decimal string rendering of a signed (mantissa, fraction-length)
numeric result: value = mantissa / 10^d. -/
def renderPair (m : ℤ) (d : ℕ) : List Char :=
  if m < 0 then '-' :: renderBody m.natAbs d else renderBody m.natAbs d

def renderDecimal (p : ℤ × ℕ) : String := ⟨renderPair p.1 p.2⟩

/-! ## Claim theorems -/

theorem nfv_eq_pair (s : String) : normalize_financial_value s = ratOfDec (nfvDec s) := by
  unfold normalize_financial_value normalizeCore nfvDec
  cases hs : searchNum (pyStrip (stripGlyphs s.data)) with
  | none => simp [ratOfDec]
  | some p =>
    obtain ⟨g, rest⟩ := p
    simp only [ratOfDec]
    push_cast
    rw [div_mul_eq_mul_div]


/-- C1: for every delivered message the dispatcher emits exactly one terminal
signal, determined by the outcome: handler success gives exactly one
acknowledgment and no requeue/discard; a classified-transient error
(extraction service unavailable/rate-limited, storage unavailable) gives
exactly one negative acknowledgment with requeue and zero discards; a
classified-permanent error (validation/value error) gives exactly one
negative acknowledgment without requeue and zero requeues; a payload failing
JSON deserialization is negatively acknowledged without requeue directly,
without invoking the handler. -/
theorem c1_dispatcher_ack_policy
    (deser : String → Except PyError WorkerMessage)
    (callback : WorkerMessage → Except PyError Unit) (body : String)
    (msg : WorkerMessage) (e : PyError) :
    (deser body = .ok msg → callback msg = .ok () →
      on_message deser callback body = .ok [.ack]) ∧
    (deser body = .ok msg → callback msg = .error e → transientCause e = true →
      on_message deser callback body = .ok [.nackRequeue]) ∧
    (deser body = .ok msg → callback msg = .error e → permanentCause e = true →
      on_message deser callback body = .ok [.nackDiscard]) ∧
    (deser body = .error .jsonDecodeError →
      ∀ cb2 : WorkerMessage → Except PyError Unit,
        on_message deser cb2 body = .ok [.nackDiscard]) := by
  refine ⟨?_, ?_, ?_, ?_⟩
  · intro h1 h2
    simp [on_message, h1, h2]
  · intro h1 h2 h3
    cases e <;> simp_all [on_message, classifyCatch, transientCause]
  · intro h1 h2 h3
    cases e <;> simp_all [on_message, classifyCatch, permanentCause]
  · intro h1 cb2
    simp [on_message, h1, classifyCatch]

/-- Witness for C1: the four cases instantiated on concrete deserializers,
handlers and outcomes. -/
theorem c1_dispatcher_ack_policy_witness :
    on_message (fun _ => .ok ⟨some "id", some "text"⟩) (fun _ => .ok ()) "b" = .ok [.ack] ∧
    on_message (fun _ => .ok ⟨some "id", some "text"⟩) (fun _ => .error .rateLimitError) "b" =
      .ok [.nackRequeue] ∧
    on_message (fun _ => .ok ⟨some "id", some "text"⟩) (fun _ => .error (.valueError "bad")) "b" =
      .ok [.nackDiscard] ∧
    on_message (fun _ => .error .jsonDecodeError) (fun _ => .ok ()) "notjson" = .ok [.nackDiscard] :=
  ⟨(c1_dispatcher_ack_policy (fun _ => .ok ⟨some "id", some "text"⟩) (fun _ => .ok ()) "b"
      ⟨some "id", some "text"⟩ .otherError).1 rfl rfl,
   (c1_dispatcher_ack_policy (fun _ => .ok ⟨some "id", some "text"⟩)
      (fun _ => .error .rateLimitError) "b" ⟨some "id", some "text"⟩ .rateLimitError).2.1
      rfl rfl rfl,
   (c1_dispatcher_ack_policy (fun _ => .ok ⟨some "id", some "text"⟩)
      (fun _ => .error (.valueError "bad")) "b" ⟨some "id", some "text"⟩ (.valueError "bad")).2.2.1
      rfl rfl rfl,
   (c1_dispatcher_ack_policy (fun _ => .error .jsonDecodeError) (fun _ => .ok ()) "notjson"
      ⟨none, none⟩ .otherError).2.2.2 rfl (fun _ => .ok ())⟩

/-- C10 (implicit): a delivered message whose deserialized payload has a
missing or empty `raw_text` makes the handler return without invoking
extraction or storage, and the dispatcher acknowledges the message as a
success — silently dropped, not treated as a permanent validation failure. -/
theorem c10_empty_raw_text_acked
    (deser : String → Except PyError WorkerMessage)
    (extract : String → Except PyError StructuredFinancialData)
    (store : StructuredFinancialData → Except PyError String)
    (body : String) (msg : WorkerMessage)
    (hdeser : deser body = .ok msg)
    (hraw : msg.raw_text = none ∨ msg.raw_text = some "") :
    process_message extract store msg = .ok () ∧
    (∀ (extract2 : String → Except PyError StructuredFinancialData)
       (store2 : StructuredFinancialData → Except PyError String),
       process_message extract2 store2 msg = .ok ()) ∧
    on_message deser (process_message extract store) body = .ok [.ack] := by
  have hpm : ∀ (e2 : String → Except PyError StructuredFinancialData)
      (s2 : StructuredFinancialData → Except PyError String),
      process_message e2 s2 msg = .ok () := by
    intro e2 s2
    rcases hraw with h | h <;> simp [process_message, h]
  exact ⟨hpm extract store, hpm, by simp [on_message, hdeser, hpm extract store]⟩

/-- Witness for C10: a message with `raw_text` set to the empty string is
acknowledged, even with an extractor and a store that would fail. -/
theorem c10_empty_raw_text_acked_witness :
    process_message (fun _ => .error .apiError) (fun _ => .error .connectionFailure)
      ⟨some "id", some ""⟩ = .ok () ∧
    (∀ (extract2 : String → Except PyError StructuredFinancialData)
       (store2 : StructuredFinancialData → Except PyError String),
       process_message extract2 store2 ⟨some "id", some ""⟩ = .ok ()) ∧
    on_message (fun _ => .ok ⟨some "id", some ""⟩)
      (process_message (fun _ => .error .apiError) (fun _ => .error .connectionFailure))
      "b" = .ok [.ack] :=
  c10_empty_raw_text_acked (fun _ => .ok ⟨some "id", some ""⟩)
    (fun _ => .error .apiError) (fun _ => .error .connectionFailure) "b"
    ⟨some "id", some ""⟩ rfl (Or.inr rfl)

/-- Helper: when some required field is missing, `_normalize_extracted_data`
raises `ValueError` (the `MissingField` failure). -/
theorem normalize_missing_field (d : AList) (raw_text : String) (f : String)
    (hf : f ∈ requiredFields) (hmiss : lookupA d f = none) :
    ∃ m, normalize_extracted_data d raw_text = .error (.valueError m) := by
  have hsome : (List.find? (fun g => (lookupA d g).isNone) requiredFields).isSome := by
    rw [List.find?_isSome]
    exact ⟨f, hf, by simp [hmiss]⟩
  obtain ⟨g, hg⟩ := Option.isSome_iff_exists.mp hsome
  exact ⟨"Missing required field " ++ g ++ " in extracted data",
    by simp [normalize_extracted_data, hg]⟩

/-- C6: a parsed extraction response missing any of the five required field
names makes the adapter raise the `MissingField` failure (a `ValueError`,
classified permanent), and the dispatcher then negatively acknowledges the
message without requeue. -/
theorem c6_missing_field_discard
    (d : AList) (f : String)
    (hf : f ∈ requiredFields) (hmiss : lookupA d f = none) :
    (∀ raw_text, ∃ m, normalize_extracted_data d raw_text = .error (.valueError m)) ∧
    (∀ m, classifyCatch (.valueError m) = .ok [.nackDiscard]) ∧
    ∀ (pj : String → Option AList) (respText : String)
      (deser : String → Except PyError WorkerMessage)
      (store : StructuredFinancialData → Except PyError String)
      (body : String) (msg : WorkerMessage) (t : String),
      pj ⟨pyStrip respText.data⟩ = some d →
      deser body = .ok msg → msg.raw_text = some t → t ≠ "" →
      on_message deser
        (process_message (fun r => extract_financial_data pj respText r) store) body =
        .ok [.nackDiscard] := by
  refine ⟨fun raw_text => normalize_missing_field d raw_text f hf hmiss, fun m => rfl, ?_⟩
  intro pj respText deser store body msg t hpj hdeser hraw ht
  obtain ⟨m, hm⟩ := normalize_missing_field d t f hf hmiss
  have hex : extract_financial_data pj respText t = .error (.valueError m) := by
    simp [extract_financial_data, hpj, hm]
  simp [on_message, hdeser, process_message, hraw, ht, hex, classifyCatch]

/-- Witness for C6: a candidate missing `currency` is rejected as a
`ValueError` and the delivery ends in a discard. -/
theorem c6_missing_field_discard_witness :
    (∀ raw_text, ∃ m,
      normalize_extracted_data
        [("company", "Company XYZ"), ("metric", "Net Income"),
         ("value", "5.3 million"), ("quarter", "Q1 2024")] raw_text =
        .error (.valueError m)) ∧
    (∀ m, classifyCatch (.valueError m) = .ok [.nackDiscard]) ∧
    on_message (fun _ => .ok ⟨some "id", some "some raw text"⟩)
      (process_message
        (fun r =>
          extract_financial_data
            (fun s =>
              if s = "resp" then
                some [("company", "Company XYZ"), ("metric", "Net Income"),
                      ("value", "5.3 million"), ("quarter", "Q1 2024")]
              else none)
            "resp" r)
        (fun _ => .ok "oid"))
      "body" = .ok [.nackDiscard] := by
  have h := c6_missing_field_discard
    [("company", "Company XYZ"), ("metric", "Net Income"),
     ("value", "5.3 million"), ("quarter", "Q1 2024")]
    "currency" (by decide) (by decide)
  exact ⟨h.1, h.2.1,
    h.2.2 (fun s =>
        if s = "resp" then
          some [("company", "Company XYZ"), ("metric", "Net Income"),
                ("value", "5.3 million"), ("quarter", "Q1 2024")]
        else none)
      "resp" (fun _ => .ok ⟨some "id", some "some raw text"⟩) (fun _ => .ok "oid")
      "body" ⟨some "id", some "some raw text"⟩ "some raw text"
      (by decide) rfl rfl (by decide)⟩

/-- Helper: `_extract_json_from_text` expressed through the brace slice. -/
theorem extract_json_eq (pj : String → Option AList) (text : List Char) :
    extract_json_from_text pj text =
      match braceSlice text with
      | none => .error (.valueError "Could not extract JSON from OpenAI response")
      | some s =>
        match pj ⟨s⟩ with
        | some d => .ok d
        | none => .error (.valueError "Could not parse extracted JSON") := by
  unfold extract_json_from_text braceSlice
  cases h1 : findChar openBrace text <;> cases h2 : rfindChar closeBrace text <;> simp
  split <;> simp

/-- C7: the adapter locates the JSON object in exactly this order — direct
parse of the full (stripped) response first; on failure the substring from
the first `{` to the last `}`; if that substring is absent or unparsable,
the `InvalidResponse` failure (a `ValueError`, classified permanent) is
raised rather than a record returned. -/
theorem c7_json_location_order
    (pj : String → Option AList) (respText raw_text : String) :
    (∀ d, pj ⟨pyStrip respText.data⟩ = some d →
      extract_financial_data pj respText raw_text = normalize_extracted_data d raw_text) ∧
    (∀ s d, pj ⟨pyStrip respText.data⟩ = none → braceSlice (pyStrip respText.data) = some s →
      pj ⟨s⟩ = some d →
      extract_financial_data pj respText raw_text = normalize_extracted_data d raw_text) ∧
    (pj ⟨pyStrip respText.data⟩ = none → braceSlice (pyStrip respText.data) = none →
      ∃ m, extract_financial_data pj respText raw_text = .error (.valueError m)) ∧
    (∀ s, pj ⟨pyStrip respText.data⟩ = none → braceSlice (pyStrip respText.data) = some s →
      pj ⟨s⟩ = none →
      ∃ m, extract_financial_data pj respText raw_text = .error (.valueError m)) ∧
    (∀ m, classifyCatch (.valueError m) = .ok [.nackDiscard]) := by
  have hdata : (⟨pyStrip respText.data⟩ : String).data = pyStrip respText.data := rfl
  refine ⟨?_, ?_, ?_, ?_, fun m => rfl⟩
  · intro d hd
    simp [extract_financial_data, hd]
  · intro s d h1 h2 h3
    simp [extract_financial_data, h1, extract_json_eq, hdata, h2, h3]
  · intro h1 h2
    exact ⟨"Could not extract JSON from OpenAI response",
      by simp [extract_financial_data, h1, extract_json_eq, hdata, h2]⟩
  · intro s h1 h2 h3
    exact ⟨"Could not parse extracted JSON",
      by simp [extract_financial_data, h1, extract_json_eq, hdata, h2, h3]⟩

/-- Witness for C7: a response with no braces and a failing direct parse
yields a `ValueError`; a direct-parse success short-circuits. -/
theorem c7_json_location_order_witness :
    (∃ m, extract_financial_data (fun _ => none) "no json here" "raw" =
      .error (.valueError m)) ∧
    extract_financial_data (fun _ => some [("company", "C")]) "resp" "raw" =
      normalize_extracted_data [("company", "C")] "raw" :=
  ⟨(c7_json_location_order (fun _ => none) "no json here" "raw").2.2.1 rfl (by decide),
   (c7_json_location_order (fun _ => some [("company", "C")]) "resp" "raw").1
     [("company", "C")] rfl⟩

/-- C8 counterexample: the claim says `Submit` validates `raw_text` as
non-empty, rejecting an empty string.  `RawFinancialData.raw_text` is a plain
required `str` with no length constraint, so the empty string passes
validation and is published successfully. -/
theorem c8_counterexample :
    validateRawFinancialData { raw_text := some "", metadata := none } =
      some { raw_text := "", metadata := none } ∧
    submit_financial_data "req-1" (fun _ => .ok ()) { raw_text := "", metadata := none } =
      .ok { message := "Financial data submitted for processing", status := "success",
            request_id := "req-1" } :=
  ⟨rfl, rfl⟩

/-- C8 (amended): `Submit` requires `raw_text` to be present (a missing field
fails validation) but accepts the empty string; it generates a fresh
request id, builds the envelope `{request_id, raw_text, metadata}`, publishes
it, and returns that request id with status success; broker unavailability
(`AMQPConnectionError`) is surfaced as a retryable HTTP 503 rather than
success. -/
theorem c8_submit_behavior (freshId : String)
    (publish : ProducerEnvelope → Except PyError Unit) (data : RawFinancialData)
    (r : SubmitRequest) :
    (validateRawFinancialData r = none ↔ r.raw_text = none) ∧
    (buildEnvelope freshId data).request_id = freshId ∧
    (buildEnvelope freshId data).raw_text = data.raw_text ∧
    (buildEnvelope freshId data).metadata = data.metadata ∧
    (publish (buildEnvelope freshId data) = .ok () →
      submit_financial_data freshId publish data =
        .ok { message := "Financial data submitted for processing", status := "success",
              request_id := freshId }) ∧
    (publish (buildEnvelope freshId data) = .error .amqpConnectionError →
      submit_financial_data freshId publish data = .error { status_code := 503 }) := by
  refine ⟨?_, rfl, rfl, rfl, ?_, ?_⟩
  · cases h : r.raw_text <;> simp [validateRawFinancialData, h]
  · intro hp
    simp [submit_financial_data, hp]
  · intro hp
    simp [submit_financial_data, hp]

/-- Witness for C8 (amended): a concrete submission through a broker that
accepts the envelope, and one through a broker raising
`AMQPConnectionError`. -/
theorem c8_submit_behavior_witness :
    (validateRawFinancialData { raw_text := none, metadata := none } = none ↔
      ({ raw_text := none, metadata := none } : SubmitRequest).raw_text = none) ∧
    submit_financial_data "req-2" (fun _ => .ok ())
      { raw_text := "some text", metadata := none } =
      .ok { message := "Financial data submitted for processing", status := "success",
            request_id := "req-2" } ∧
    submit_financial_data "req-3" (fun _ => .error .amqpConnectionError)
      { raw_text := "some text", metadata := none } = .error { status_code := 503 } :=
  ⟨(c8_submit_behavior "req-2" (fun _ => .ok ())
      { raw_text := "some text", metadata := none }
      { raw_text := none, metadata := none }).1,
   (c8_submit_behavior "req-2" (fun _ => .ok ())
      { raw_text := "some text", metadata := none }
      { raw_text := none, metadata := none }).2.2.2.2.1 rfl,
   (c8_submit_behavior "req-3" (fun _ => .error .amqpConnectionError)
      { raw_text := "some text", metadata := none }
      { raw_text := none, metadata := none }).2.2.2.2.2 rfl⟩

theorem nfv_example : normalize_financial_value "5.3 million" = 5300000 := by
  rw [nfv_eq_pair]
  have h : nfvDec "5.3 million" = (53000000, 1) := by decide
  rw [h]
  norm_num [ratOfDec]

/-- The record the adapter actually assembles for the end-to-end candidate. -/
theorem normalize_example :
    normalize_extracted_data exampleCandidate exampleRawText =
      .ok { company := "Company XYZ", metric := "Net Income",
            value := normalize_financial_value "5.3 million", currency := "usd",
            quarter := "Q1 2024", raw_text := exampleRawText,
            metadata := [("original_value", "5.3 million")] } := rfl

/-- C2 counterexample: the claim says the assembled record has the metric
lower-cased and the currency upper-cased; on the end-to-end candidate the
code copies them verbatim, so the record carries "Net Income" and "usd",
not "net income" and "USD". -/
theorem c2_counterexample :
    ∃ r, normalize_extracted_data exampleCandidate exampleRawText = .ok r ∧
      r.metric = "Net Income" ∧ r.currency = "usd" ∧
      ¬(r.metric = "net income" ∧ r.currency = "USD") := by
  refine ⟨_, normalize_example, rfl, rfl, ?_⟩
  intro h
  exact absurd h.1 (by decide)

/-- C2 (amended): the adapter copies metric and currency into the record
verbatim (no case normalization); for the end-to-end candidate the record
has company "Company XYZ", metric "Net Income", value 5300000.0, currency
"usd", and period "Q1 2024", with the original value string in metadata. -/
theorem c2_record_assembly :
    (∀ (d : AList) (raw : String) (r : StructuredFinancialData),
      normalize_extracted_data d raw = .ok r →
      lookupA d "metric" = some r.metric ∧ lookupA d "currency" = some r.currency) ∧
    ∃ r, normalize_extracted_data exampleCandidate exampleRawText = .ok r ∧
      r.company = "Company XYZ" ∧ r.metric = "Net Income" ∧ r.value = 5300000 ∧
      r.currency = "usd" ∧ r.quarter = "Q1 2024" ∧
      r.metadata = [("original_value", "5.3 million")] := by
  constructor
  · intro d raw r h
    unfold normalize_extracted_data at h
    cases hfind : List.find? (fun f => (lookupA d f).isNone) requiredFields <;>
      rw [hfind] at h
    · cases hco : lookupA d "company" <;> rw [hco] at h <;>
      cases hme : lookupA d "metric" <;> rw [hme] at h <;>
      cases hva : lookupA d "value" <;> rw [hva] at h <;>
      cases hcu : lookupA d "currency" <;> rw [hcu] at h <;>
      cases hqu : lookupA d "quarter" <;> rw [hqu] at h <;>
        simp_all
      subst h
      exact ⟨rfl, rfl⟩
    · simp_all
  · exact ⟨_, normalize_example, rfl, rfl, nfv_example, rfl, rfl, rfl⟩

/-- Witness for C2 (amended): the pass-through conjunct applied to the
end-to-end candidate and its assembled record. -/
theorem c2_record_assembly_witness :
    lookupA exampleCandidate "metric" = some "Net Income" ∧
    lookupA exampleCandidate "currency" = some "usd" :=
  c2_record_assembly.1 exampleCandidate exampleRawText
    { company := "Company XYZ", metric := "Net Income",
      value := normalize_financial_value "5.3 million", currency := "usd",
      quarter := "Q1 2024", raw_text := exampleRawText,
      metadata := [("original_value", "5.3 million")] } normalize_example

/-- C5 counterexample: the claim says the candidate's period string is
routed through `ParsePeriod`, with a fallback scan of `raw_text` when it
matches no pattern and the "Unknown" sentinel only when both fail.  On a
candidate quarter matching no pattern, with a raw text containing "Q2 2025",
the code keeps the unparsed candidate string verbatim. -/
theorem c5_counterexample :
    extract_quarter "eventually" = none ∧
    extract_quarter c5RawText = some "Q2 2025" ∧
    ∃ r, normalize_extracted_data c5Candidate c5RawText = .ok r ∧
      r.quarter = "eventually" ∧ r.quarter ≠ "Q2 2025" ∧ r.quarter ≠ "Unknown" := by
  refine ⟨by decide, by decide, ?_⟩
  refine ⟨_, rfl, rfl, by decide, by decide⟩

/-- C5 (amended): the candidate's period string is not parsed at all — it is
copied verbatim into the record whenever it is non-empty; only when it is
empty does the adapter scan the original `raw_text` with `ParsePeriod`, and
the "Unknown" sentinel is used exactly when the candidate string is empty
and that scan fails. -/
theorem c5_quarter_fallback (d : AList) (raw : String) (qu : String)
    (hq : lookupA d "quarter" = some qu) :
    (qu ≠ "" → ∀ r, normalize_extracted_data d raw = .ok r → r.quarter = qu) ∧
    (qu = "" → ∀ r, normalize_extracted_data d raw = .ok r →
      r.quarter = (extract_quarter raw).getD "Unknown") := by
  constructor
  · intro hne r h
    unfold normalize_extracted_data at h
    cases hfind : List.find? (fun f => (lookupA d f).isNone) requiredFields <;>
      rw [hfind] at h
    · cases hco : lookupA d "company" <;> rw [hco] at h <;>
      cases hme : lookupA d "metric" <;> rw [hme] at h <;>
      cases hva : lookupA d "value" <;> rw [hva] at h <;>
      cases hcu : lookupA d "currency" <;> rw [hcu] at h <;>
        rw [hq] at h <;> simp_all
      subst h
      simp [hne]
    · simp_all
  · intro he r h
    subst he
    unfold normalize_extracted_data at h
    cases hfind : List.find? (fun f => (lookupA d f).isNone) requiredFields <;>
      rw [hfind] at h
    · cases hco : lookupA d "company" <;> rw [hco] at h <;>
      cases hme : lookupA d "metric" <;> rw [hme] at h <;>
      cases hva : lookupA d "value" <;> rw [hva] at h <;>
      cases hcu : lookupA d "currency" <;> rw [hcu] at h <;>
        rw [hq] at h <;> simp_all
      subst h
      rfl
    · simp_all

/-- Witness for C5 (amended): both branches on concrete candidates — a
non-empty unparseable quarter kept verbatim, and an empty quarter replaced
by the raw-text scan. -/
theorem c5_quarter_fallback_witness :
    (("eventually" : String) ≠ "" →
      ∀ r, normalize_extracted_data c5Candidate c5RawText = .ok r →
        r.quarter = "eventually") ∧
    (("" : String) = "" →
      ∀ r, normalize_extracted_data
          [("company", "C"), ("metric", "m"), ("value", "1"), ("currency", "USD"),
           ("quarter", "")] c5RawText = .ok r →
        r.quarter = (extract_quarter c5RawText).getD "Unknown") :=
  ⟨(c5_quarter_fallback c5Candidate c5RawText "eventually" rfl).1,
   (c5_quarter_fallback
      [("company", "C"), ("metric", "m"), ("value", "1"), ("currency", "USD"),
       ("quarter", "")] c5RawText "" rfl).2⟩

/-- C3: `ParseFinancialValue` strips the currency glyphs and surrounding
whitespace, finds a signed decimal number anywhere in the cleaned string
with an optional case-insensitive scale token separated by optional
whitespace, multiplies by the corresponding power-of-ten factor, never
raises (it is total), and returns 0.0 when no numeric token is found; in
particular the three spec test vectors hold. -/
theorem c3_parse_financial_value :
    normalize_financial_value "$5.3 million" = 5300000 ∧
    normalize_financial_value "1.2B" = 1200000000 ∧
    normalize_financial_value "garbage" = 0 ∧
    (∀ s, searchNum (pyStrip (stripGlyphs s.data)) = none →
      normalize_financial_value s = 0) ∧
    (∀ s g rest, searchNum (pyStrip (stripGlyphs s.data)) = some (g, rest) →
      normalize_financial_value s =
        ratOfDec (parseDec g) * (multiplierFactor (scaleAfter rest) : ℚ)) := by
  refine ⟨?_, ?_, ?_, ?_, ?_⟩
  · rw [nfv_eq_pair]
    have h : nfvDec "$5.3 million" = (53000000, 1) := by decide
    rw [h]; norm_num [ratOfDec]
  · rw [nfv_eq_pair]
    have h : nfvDec "1.2B" = (12000000000, 1) := by decide
    rw [h]; norm_num [ratOfDec]
  · rw [nfv_eq_pair]
    have h : nfvDec "garbage" = (0, 0) := by decide
    rw [h]; norm_num [ratOfDec]
  · intro s hs
    unfold normalize_financial_value normalizeCore
    rw [hs]
  · intro s g rest hs
    unfold normalize_financial_value normalizeCore
    rw [hs]

/-- Witness for C3: the no-match and match cases instantiated on concrete
inputs. -/
theorem c3_parse_financial_value_witness :
    normalize_financial_value "garbage" = 0 ∧
    normalize_financial_value "1.2B" =
      ratOfDec (parseDec "1.2".data) * (multiplierFactor (scaleAfter "B".data) : ℚ) :=
  ⟨c3_parse_financial_value.2.2.2.1 "garbage" (by decide),
   c3_parse_financial_value.2.2.2.2 "1.2B" "1.2".data "B".data (by decide)⟩

/-- C4: `ParsePeriod` tries exactly three patterns in fixed priority order —
`Q[1-4]` + optional whitespace + 4-digit year; 4-digit year + `Q[1-4]`
reassembled quarter-first; the case-insensitive written ordinal form —
returning the first match canonically and `None` when no pattern matches;
the four spec test vectors hold. -/
theorem c4_parse_period :
    extract_quarter "Q1 2024" = some "Q1 2024" ∧
    extract_quarter "2024 Q3" = some "Q3 2024" ∧
    extract_quarter "first quarter of 2023" = some "Q1 2023" ∧
    extract_quarter "no period here" = none ∧
    (∀ t d y, searchWith pat1At t.data = some (d, y) →
      extract_quarter t = some (canonQ d y)) ∧
    (∀ t d y, searchWith pat1At t.data = none → searchWith pat2At t.data = some (d, y) →
      extract_quarter t = some (canonQ d y)) ∧
    (∀ t, searchWith pat1At t.data = none → searchWith pat2At t.data = none →
      searchWith (pat3At "first".data) t.data = none →
      searchWith (pat3At "second".data) t.data = none →
      searchWith (pat3At "third".data) t.data = none →
      searchWith (pat3At "fourth".data) t.data = none →
      extract_quarter t = none) := by
  refine ⟨by decide, by decide, by decide, by decide, ?_, ?_, ?_⟩
  · intro t d y h
    unfold extract_quarter
    rw [h]
  · intro t d y h1 h2
    unfold extract_quarter
    rw [h1, h2]
  · intro t h1 h2 h3 h4 h5 h6
    unfold extract_quarter
    rw [h1, h2, h3, h4, h5, h6]

/-- Witness for C4: the priority-order conjuncts instantiated on concrete
inputs ("Q1 2024" via pattern 1, "2024 Q3" via pattern 2, "no period here"
matching nothing). -/
theorem c4_parse_period_witness :
    extract_quarter "Q1 2024" = some (canonQ '1' "2024".data) ∧
    extract_quarter "2024 Q3" = some (canonQ '3' "2024".data) ∧
    extract_quarter "no period here" = none :=
  ⟨c4_parse_period.2.2.2.2.1 "Q1 2024" '1' "2024".data (by decide),
   c4_parse_period.2.2.2.2.2.1 "2024 Q3" '3' "2024".data (by decide) (by decide),
   c4_parse_period.2.2.2.2.2.2 "no period here" (by decide) (by decide) (by decide)
     (by decide) (by decide) (by decide)⟩

/-! ### Idempotence of `extract_quarter` on its canonical output -/

theorem digit_not_space {c : Char} (h : isDigitC c = true) : isSpaceC c = false := by
  unfold isSpaceC
  by_cases h1 : c = ' '
  · subst h1; exact absurd h (by decide)
  by_cases h2 : c = '\t'
  · subst h2; exact absurd h (by decide)
  by_cases h3 : c = '\n'
  · subst h3; exact absurd h (by decide)
  by_cases h4 : c = '\r'
  · subst h4; exact absurd h (by decide)
  by_cases h5 : c = '\x0b'
  · subst h5; exact absurd h (by decide)
  by_cases h6 : c = '\x0c'
  · subst h6; exact absurd h (by decide)
  simp [h1, h2, h3, h4, h5, h6]

theorem searchWith_of_some {α : Type} (f : List Char → Option α) {l : List Char} {r : α}
    (h : searchWith f l = some r) : ∃ l2, f l2 = some r := by
  induction l with
  | nil => exact ⟨[], h⟩
  | cons c t ih =>
    unfold searchWith at h
    cases hf : f (c :: t) with
    | some r2 => rw [hf] at h; exact ⟨c :: t, by rw [hf, ← Option.some_inj.mp h]⟩
    | none => rw [hf] at h; exact ih h

theorem take4_shape {l y : List Char} (h : take4Digits l = some y) :
    ∃ a b c d, y = [a, b, c, d] ∧
      (isDigitC a && isDigitC b && isDigitC c && isDigitC d) = true := by
  match l with
  | [] => simp [take4Digits] at h
  | [a] => simp [take4Digits] at h
  | [a, b] => simp [take4Digits] at h
  | [a, b, c] => simp [take4Digits] at h
  | a :: b :: c :: d :: rest =>
    rw [show take4Digits (a :: b :: c :: d :: rest) =
      (if (isDigitC a && isDigitC b && isDigitC c && isDigitC d) = true
       then some [a, b, c, d] else none) from rfl] at h
    split at h
    · exact ⟨a, b, c, d, (Option.some_inj.mp h).symm, by assumption⟩
    · exact absurd h (by simp)

theorem pat1_shape {l : List Char} {d : Char} {y : List Char}
    (h : pat1At l = some (d, y)) :
    isQDigit d = true ∧ ∃ a b c e, y = [a, b, c, e] ∧
      (isDigitC a && isDigitC b && isDigitC c && isDigitC e) = true := by
  match l with
  | [] => simp [pat1At] at h
  | [c] => simp [pat1At] at h
  | c0 :: d0 :: r =>
    rw [show pat1At (c0 :: d0 :: r) =
      (if (isQChar c0 && isQDigit d0) = true
       then (take4Digits (dropSpaces r)).map (fun y => (d0, y)) else none) from rfl] at h
    split at h
    · rename_i hcond
      cases ht : take4Digits (dropSpaces r) with
      | none => rw [ht] at h; simp at h
      | some y2 =>
        rw [ht] at h
        simp only [Option.map_some', Option.some.injEq, Prod.mk.injEq] at h
        obtain ⟨h1, h2⟩ := h
        obtain ⟨a, b, c, e, hy, hd⟩ := take4_shape ht
        exact ⟨h1 ▸ (Bool.and_eq_true_iff.mp hcond).2, a, b, c, e, h2 ▸ hy, hd⟩
    · exact absurd h (by simp)

theorem pat2Tail_shape {l : List Char} {d : Char} (h : pat2Tail l = some d) :
    isQDigit d = true := by
  match l with
  | [] => simp [pat2Tail] at h
  | [c] => simp [pat2Tail] at h
  | c0 :: d0 :: r =>
    rw [show pat2Tail (c0 :: d0 :: r) =
      (if (isQChar c0 && isQDigit d0) = true then some d0 else none) from rfl] at h
    split at h
    · rename_i hcond
      exact (Option.some_inj.mp h) ▸ (Bool.and_eq_true_iff.mp hcond).2
    · exact absurd h (by simp)

theorem pat2_shape {l : List Char} {d : Char} {y : List Char}
    (h : pat2At l = some (d, y)) :
    isQDigit d = true ∧ ∃ a b c e, y = [a, b, c, e] ∧
      (isDigitC a && isDigitC b && isDigitC c && isDigitC e) = true := by
  unfold pat2At at h
  cases ht : take4Digits l with
  | none => rw [ht] at h; simp at h
  | some y2 =>
    rw [ht] at h
    simp only [Option.some_bind] at h
    cases hq : pat2Tail (dropSpaces (l.drop 4)) with
    | none => rw [hq] at h; simp at h
    | some d0 =>
      rw [hq] at h
      simp only [Option.map_some', Option.some.injEq, Prod.mk.injEq] at h
      obtain ⟨h1, h2⟩ := h
      obtain ⟨a, b, c, e, hy, hd⟩ := take4_shape ht
      exact ⟨h1 ▸ pat2Tail_shape hq, a, b, c, e, h2 ▸ hy, hd⟩

theorem pat3_shape {w l y : List Char} (h : pat3At w l = some y) :
    ∃ a b c e, y = [a, b, c, e] ∧
      (isDigitC a && isDigitC b && isDigitC c && isDigitC e) = true := by
  unfold pat3At at h
  cases h1 : matchTokenCI w l with
  | none => rw [h1] at h; simp at h
  | some r1 =>
    rw [h1] at h
    simp only [Option.some_bind] at h
    cases h2 : reqSpaces (l.drop r1.length) with
    | none => rw [h2] at h; simp at h
    | some r2 =>
      rw [h2] at h
      simp only [Option.some_bind] at h
      cases h3 : matchTokenCI "quarter".data r2 with
      | none => rw [h3] at h; simp at h
      | some r3 =>
        rw [h3] at h
        simp only [Option.some_bind] at h
        cases h4 : reqSpaces (r2.drop r3.length) with
        | none => rw [h4] at h; simp at h
        | some r4 =>
          rw [h4] at h
          simp only [Option.some_bind] at h
          cases h5 : matchTokenCI "of".data r4 with
          | none => rw [h5] at h; simp at h
          | some r5 =>
            rw [h5] at h
            simp only [Option.some_bind] at h
            cases h6 : reqSpaces (r4.drop r5.length) with
            | none => rw [h6] at h; simp at h
            | some r6 =>
              rw [h6] at h
              simp only [Option.some_bind] at h
              exact take4_shape h

/-- A pattern-1 search hit determines the `extract_quarter` result. -/
theorem quarter_of_pat1 (t : String) (d : Char) (y : List Char)
    (h : searchWith pat1At t.data = some (d, y)) :
    extract_quarter t = some (canonQ d y) := by
  unfold extract_quarter
  rw [h]

/-- The canonical string `Q<digit> <4-digit year>` reparses, via pattern 1 at
position 0, to itself. -/
theorem canon_reparse {d a b c e : Char} (hd : isQDigit d = true)
    (hy : (isDigitC a && isDigitC b && isDigitC c && isDigitC e) = true) :
    extract_quarter (canonQ d [a, b, c, e]) = some (canonQ d [a, b, c, e]) := by
  have ha : isDigitC a = true := by
    simp only [Bool.and_eq_true] at hy
    exact hy.1.1.1
  have hsp : dropSpaces (' ' :: [a, b, c, e]) = [a, b, c, e] := by
    unfold dropSpaces
    rw [List.dropWhile_cons, if_pos (by decide), List.dropWhile_cons,
        if_neg (by simp [digit_not_space ha])]
  have hp1 : pat1At ('Q' :: d :: ' ' :: [a, b, c, e]) = some (d, [a, b, c, e]) := by
    rw [show pat1At ('Q' :: d :: ' ' :: [a, b, c, e]) =
      (if (isQChar 'Q' && isQDigit d) = true
       then (take4Digits (dropSpaces (' ' :: [a, b, c, e]))).map (fun y => (d, y))
       else none) from rfl]
    rw [if_pos (by simp [isQChar, hd]), hsp,
        show take4Digits [a, b, c, e] =
          (if (isDigitC a && isDigitC b && isDigitC c && isDigitC e) = true
           then some [a, b, c, e] else none) from rfl,
        if_pos hy]
    rfl
  have hs : searchWith pat1At ('Q' :: d :: ' ' :: [a, b, c, e]) = some (d, [a, b, c, e]) := by
    unfold searchWith
    rw [hp1]
  exact quarter_of_pat1 (canonQ d [a, b, c, e]) d [a, b, c, e] hs

/-- `extract_quarter` output is always in canonical shape and reparses to
itself. -/
theorem extract_quarter_idem (t p : String) (h : extract_quarter t = some p) :
    extract_quarter p = some p := by
  unfold extract_quarter at h
  cases h1 : searchWith pat1At t.data with
  | some r =>
    rw [h1] at h
    obtain ⟨d, y⟩ := r
    obtain ⟨l2, hl2⟩ := searchWith_of_some _ h1
    obtain ⟨hd, a, b, c, e, hy, hdy⟩ := pat1_shape hl2
    subst hy
    rw [← Option.some_inj.mp h]
    exact canon_reparse hd hdy
  | none =>
    rw [h1] at h
    cases h2 : searchWith pat2At t.data with
    | some r =>
      rw [h2] at h
      obtain ⟨d, y⟩ := r
      obtain ⟨l2, hl2⟩ := searchWith_of_some _ h2
      obtain ⟨hd, a, b, c, e, hy, hdy⟩ := pat2_shape hl2
      subst hy
      rw [← Option.some_inj.mp h]
      exact canon_reparse hd hdy
    | none =>
      rw [h2] at h
      cases h3 : searchWith (pat3At "first".data) t.data with
      | some y =>
        rw [h3] at h
        obtain ⟨l2, hl2⟩ := searchWith_of_some _ h3
        obtain ⟨a, b, c, e, hy, hdy⟩ := pat3_shape hl2
        subst hy
        rw [← Option.some_inj.mp h]
        exact canon_reparse (by decide) hdy
      | none =>
        rw [h3] at h
        cases h4 : searchWith (pat3At "second".data) t.data with
        | some y =>
          rw [h4] at h
          obtain ⟨l2, hl2⟩ := searchWith_of_some _ h4
          obtain ⟨a, b, c, e, hy, hdy⟩ := pat3_shape hl2
          subst hy
          rw [← Option.some_inj.mp h]
          exact canon_reparse (by decide) hdy
        | none =>
          rw [h4] at h
          cases h5 : searchWith (pat3At "third".data) t.data with
          | some y =>
            rw [h5] at h
            obtain ⟨l2, hl2⟩ := searchWith_of_some _ h5
            obtain ⟨a, b, c, e, hy, hdy⟩ := pat3_shape hl2
            subst hy
            rw [← Option.some_inj.mp h]
            exact canon_reparse (by decide) hdy
          | none =>
            rw [h5] at h
            cases h6 : searchWith (pat3At "fourth".data) t.data with
            | some y =>
              rw [h6] at h
              obtain ⟨l2, hl2⟩ := searchWith_of_some _ h6
              obtain ⟨a, b, c, e, hy, hdy⟩ := pat3_shape hl2
              subst hy
              rw [← Option.some_inj.mp h]
              exact canon_reparse (by decide) hdy
            | none =>
              rw [h6] at h
              exact absurd h (by simp)

/-! ### The value round trip: decimal rendering machinery -/

theorem digitChar_digit (k : ℕ) : isDigitC (digitChar k) = true := by
  unfold digitChar
  split <;> decide

theorem charVal_digitChar {k : ℕ} (h : k < 10) : charVal (digitChar k) = k := by
  interval_cases k <;> decide

theorem digitsVal_foldl (l : List Char) :
    ∀ a : ℕ, l.foldl (fun x c => 10 * x + charVal c) a = a * 10 ^ l.length + digitsVal l := by
  induction l with
  | nil => intro a; simp [digitsVal]
  | cons c t ih =>
    intro a
    have h1 : (c :: t).foldl (fun x c => 10 * x + charVal c) a =
        t.foldl (fun x c => 10 * x + charVal c) (10 * a + charVal c) := rfl
    have h2 : digitsVal (c :: t) =
        t.foldl (fun x c => 10 * x + charVal c) (10 * 0 + charVal c) := rfl
    rw [h1, ih, h2, ih (10 * 0 + charVal c)]
    simp [List.length_cons, pow_succ]
    ring

theorem digitsVal_append (A B : List Char) :
    digitsVal (A ++ B) = digitsVal A * 10 ^ B.length + digitsVal B := by
  have h1 : digitsVal (A ++ B) =
      B.foldl (fun x c => 10 * x + charVal c) (digitsVal A) := by
    unfold digitsVal
    rw [List.foldl_append]
  rw [h1, digitsVal_foldl]

theorem digitsVal_singleton (c : Char) : digitsVal [c] = charVal c := by
  unfold digitsVal
  simp [List.foldl]

theorem digitsVal_replicate_zero (k : ℕ) : digitsVal (List.replicate k '0') = 0 := by
  induction k with
  | zero => rfl
  | succ n ih =>
    have h1 : digitsVal (List.replicate (n + 1) '0') =
        (List.replicate n '0').foldl (fun x c => 10 * x + charVal c) (10 * 0 + charVal '0') :=
      rfl
    rw [h1, digitsVal_foldl]
    norm_num [show charVal '0' = 0 from rfl, ih]

theorem digitsVal_natDigitList (n : ℕ) : digitsVal (natDigitList n) = n := by
  induction n using Nat.strong_induction_on with
  | _ n ih =>
    rw [natDigitList]
    split
    · rename_i h
      rw [digitsVal_singleton, charVal_digitChar h]
    · rename_i h
      rw [digitsVal_append, ih (n / 10) (Nat.div_lt_self (by omega) (by omega)),
          digitsVal_singleton, charVal_digitChar (Nat.mod_lt _ (by omega))]
      simp
      omega

theorem natDigitList_digits (n : ℕ) : ∀ c ∈ natDigitList n, isDigitC c = true := by
  induction n using Nat.strong_induction_on with
  | _ n ih =>
    rw [natDigitList]
    split
    · intro c hc
      rw [List.mem_singleton] at hc
      subst hc
      exact digitChar_digit n
    · intro c hc
      rw [List.mem_append] at hc
      rcases hc with hc | hc
      · exact ih (n / 10) (Nat.div_lt_self (by omega) (by omega)) c hc
      · rw [List.mem_singleton] at hc
        subst hc
        exact digitChar_digit (n % 10)

theorem natDigitList_ne_nil (n : ℕ) : natDigitList n ≠ [] := by
  rw [natDigitList]
  split <;> simp

theorem padLeftZeros_length (k : ℕ) (l : List Char) :
    (padLeftZeros k l).length = max k l.length := by
  unfold padLeftZeros
  simp [List.length_append]
  omega

theorem padLeftZeros_digits (k : ℕ) (l : List Char) (h : ∀ c ∈ l, isDigitC c = true) :
    ∀ c ∈ padLeftZeros k l, isDigitC c = true := by
  intro c hc
  unfold padLeftZeros at hc
  rw [List.mem_append] at hc
  rcases hc with hc | hc
  · rw [List.eq_of_mem_replicate hc]
    decide
  · exact h c hc

theorem padLeftZeros_val (k : ℕ) (l : List Char) :
    digitsVal (padLeftZeros k l) = digitsVal l := by
  unfold padLeftZeros
  rw [digitsVal_append, digitsVal_replicate_zero]
  simp

theorem takeWhile_append_all {p : Char → Bool} {A : List Char} (B : List Char)
    (hA : ∀ c ∈ A, p c = true) : (A ++ B).takeWhile p = A ++ B.takeWhile p := by
  induction A with
  | nil => simp
  | cons c t ih =>
    have hc : p c = true := hA c (by simp)
    simp only [List.cons_append, List.takeWhile_cons, hc, if_true]
    rw [ih (fun x hx => hA x (by simp [hx]))]

theorem dropWhile_append_all {p : Char → Bool} {A : List Char} (B : List Char)
    (hA : ∀ c ∈ A, p c = true) : (A ++ B).dropWhile p = B.dropWhile p := by
  induction A with
  | nil => simp
  | cons c t ih =>
    have hc : p c = true := hA c (by simp)
    simp only [List.cons_append, List.dropWhile_cons, hc, if_true]
    exact ih (fun x hx => hA x (by simp [hx]))

theorem takeWhile_all {p : Char → Bool} {A : List Char}
    (hA : ∀ c ∈ A, p c = true) : A.takeWhile p = A := by
  have h := takeWhile_append_all (p := p) [] hA
  simpa using h

theorem dropWhile_all {p : Char → Bool} {A : List Char}
    (hA : ∀ c ∈ A, p c = true) : A.dropWhile p = [] := by
  have h := dropWhile_append_all (p := p) [] hA
  simpa using h

theorem dropWhile_all_neg {p : Char → Bool} {l : List Char}
    (h : ∀ c ∈ l, p c = false) : l.dropWhile p = l := by
  cases l with
  | nil => rfl
  | cons c t => rw [List.dropWhile_cons, if_neg (by simp [h c (by simp)])]

theorem pyStrip_all_neg {l : List Char} (h : ∀ c ∈ l, isSpaceC c = false) :
    pyStrip l = l := by
  unfold pyStrip dropSpaces
  rw [dropWhile_all_neg (fun c hc => h c (List.mem_reverse.mp hc)), List.reverse_reverse,
      dropWhile_all_neg h]

theorem stripGlyphs_all_neg {l : List Char} (h : ∀ c ∈ l, isGlyphC c = false) :
    stripGlyphs l = l := by
  unfold stripGlyphs
  rw [List.filter_eq_self.mpr]
  intro a ha
  simp [h a ha]

theorem digit_not_sign {c : Char} (h : isDigitC c = true) :
    (c = '-' || c = '+') = false := by
  by_cases h1 : c = '-'
  · subst h1; exact absurd h (by decide)
  by_cases h2 : c = '+'
  · subst h2; exact absurd h (by decide)
  simp [h1, h2]

theorem digit_not_glyph {c : Char} (h : isDigitC c = true) : isGlyphC c = false := by
  unfold isGlyphC
  by_cases h1 : c = '$'
  · subst h1; exact absurd h (by decide)
  by_cases h2 : c = '£'
  · subst h2; exact absurd h (by decide)
  by_cases h3 : c = '€'
  · subst h3; exact absurd h (by decide)
  by_cases h4 : c = '¥'
  · subst h4; exact absurd h (by decide)
  simp [h1, h2, h3, h4]

theorem matchNumberCore_digits {A : List Char} (hne : A ≠ [])
    (hd : ∀ c ∈ A, isDigitC c = true) : matchNumberCore A = some (A, []) := by
  unfold matchNumberCore
  rw [takeWhile_all hd, dropWhile_all hd]
  simp [hne]

theorem matchNumberCore_int_frac {I F : List Char}
    (hdI : ∀ c ∈ I, isDigitC c = true) (hF : F ≠ [])
    (hdF : ∀ c ∈ F, isDigitC c = true) :
    matchNumberCore (I ++ '.' :: F) = some (I ++ '.' :: F, []) := by
  unfold matchNumberCore
  rw [takeWhile_append_all _ hdI, dropWhile_append_all _ hdI,
      List.takeWhile_cons, List.dropWhile_cons]
  simp only [show isDigitC '.' = false from rfl, Bool.false_eq_true, if_false]
  rw [takeWhile_all hdF, dropWhile_all hdF]
  simp [hF]

theorem matchNumberAt_digits {A : List Char} (hne : A ≠ [])
    (hd : ∀ c ∈ A, isDigitC c = true) : matchNumberAt A = some (A, []) := by
  cases A with
  | nil => exact absurd rfl hne
  | cons c t =>
    rw [show matchNumberAt (c :: t) =
      (if c = '-' || c = '+' then (matchNumberCore t).map (fun p => (c :: p.1, p.2))
       else matchNumberCore (c :: t)) from rfl]
    rw [if_neg (by simp [digit_not_sign (hd c (by simp))])]
    exact matchNumberCore_digits hne hd

theorem searchNum_cons_of_some {c : Char} {t : List Char} {r : List Char × List Char}
    (h : matchNumberAt (c :: t) = some r) : searchNum (c :: t) = some r := by
  unfold searchNum
  rw [h]

theorem parseDecNat_digits {A : List Char} (hd : ∀ c ∈ A, isDigitC c = true) :
    parseDecNat A = (digitsVal A, 0) := by
  unfold parseDecNat
  rw [takeWhile_all hd, dropWhile_all hd]
  simp [digitsVal]

theorem parseDecNat_int_frac {I F : List Char} (hdI : ∀ c ∈ I, isDigitC c = true)
    (hdF : ∀ c ∈ F, isDigitC c = true) :
    parseDecNat (I ++ '.' :: F) =
      (digitsVal I * 10 ^ F.length + digitsVal F, F.length) := by
  unfold parseDecNat
  rw [takeWhile_append_all _ hdI, dropWhile_append_all _ hdI,
      List.takeWhile_cons, List.dropWhile_cons]
  simp only [show isDigitC '.' = false from rfl, Bool.false_eq_true, if_false]
  rw [takeWhile_all hdF]
  simp

theorem matchNumberAt_int_frac {I F : List Char} (hI : I ≠ [])
    (hdI : ∀ c ∈ I, isDigitC c = true) (hF : F ≠ [])
    (hdF : ∀ c ∈ F, isDigitC c = true) :
    matchNumberAt (I ++ '.' :: F) = some (I ++ '.' :: F, []) := by
  cases I with
  | nil => exact absurd rfl hI
  | cons c t =>
    rw [List.cons_append]
    rw [show matchNumberAt (c :: (t ++ '.' :: F)) =
      (if c = '-' || c = '+'
       then (matchNumberCore (t ++ '.' :: F)).map (fun p => (c :: p.1, p.2))
       else matchNumberCore (c :: (t ++ '.' :: F))) from rfl]
    rw [if_neg (by simp [digit_not_sign (hdI c (by simp))])]
    rw [← List.cons_append]
    exact matchNumberCore_int_frac hdI hF hdF

theorem renderBody_spec (n : ℕ) (d : ℕ) :
    renderBody n d ≠ [] ∧
    (∀ c ∈ renderBody n d, isDigitC c = true ∨ c = '.') ∧
    (∀ c t, renderBody n d = c :: t → isDigitC c = true) ∧
    matchNumberAt (renderBody n d) = some (renderBody n d, []) ∧
    parseDecNat (renderBody n d) = (n, d) := by
  unfold renderBody
  by_cases hd0 : d = 0
  · rw [if_pos hd0]
    have hdig : ∀ c ∈ padLeftZeros (d + 1) (natDigitList n), isDigitC c = true :=
      padLeftZeros_digits _ _ (natDigitList_digits n)
    have hne : padLeftZeros (d + 1) (natDigitList n) ≠ [] := by
      intro hnil
      have := padLeftZeros_length (d + 1) (natDigitList n)
      rw [hnil] at this
      simp at this
      omega
    refine ⟨hne, fun c hc => Or.inl (hdig c hc), ?_, matchNumberAt_digits hne hdig, ?_⟩
    · intro c t hct
      exact hdig c (by rw [hct]; simp)
    · rw [parseDecNat_digits hdig, padLeftZeros_val, digitsVal_natDigitList, hd0]
  · simp only [if_neg hd0]
    have hdig : ∀ c ∈ padLeftZeros (d + 1) (natDigitList n), isDigitC c = true :=
      padLeftZeros_digits _ _ (natDigitList_digits n)
    set ds := padLeftZeros (d + 1) (natDigitList n) with hds
    have hlen : d + 1 ≤ ds.length := by
      rw [hds, padLeftZeros_length]
      omega
    set I := ds.take (ds.length - d) with hI
    set F := ds.drop (ds.length - d) with hF
    have hIF : I ++ F = ds := List.take_append_drop _ _
    have hIlen : I.length = ds.length - d := by
      rw [hI, List.length_take]
      omega
    have hFlen : F.length = d := by
      rw [hF, List.length_drop]
      omega
    have hIne : I ≠ [] := by
      intro h0
      rw [h0] at hIlen
      simp at hIlen
      omega
    have hFne : F ≠ [] := by
      intro h0
      rw [h0] at hFlen
      simp at hFlen
      omega
    have hdI : ∀ c ∈ I, isDigitC c = true := fun c hc => hdig c (List.take_subset _ _ hc)
    have hdF : ∀ c ∈ F, isDigitC c = true := fun c hc => hdig c (List.drop_subset _ _ hc)
    have hval : digitsVal I * 10 ^ F.length + digitsVal F = n := by
      rw [← digitsVal_append, hIF, hds, padLeftZeros_val, digitsVal_natDigitList]
    refine ⟨?_, ?_, ?_, matchNumberAt_int_frac hIne hdI hFne hdF, ?_⟩
    · intro h0
      rcases List.exists_cons_of_ne_nil hIne with ⟨c, t, hct⟩
      rw [hct] at h0
      simp at h0
    · intro c hc
      rw [List.mem_append] at hc
      rcases hc with hc | hc
      · exact Or.inl (hdI c hc)
      · rw [List.mem_cons] at hc
        rcases hc with hc | hc
        · exact Or.inr hc
        · exact Or.inl (hdF c hc)
    · intro c t hct
      rcases List.exists_cons_of_ne_nil hIne with ⟨c0, t0, hc0⟩
      rw [hc0, List.cons_append] at hct
      have : c0 = c := (List.cons.injEq .. ▸ hct).1
      exact this ▸ hdI c0 (by rw [hc0]; simp)
    · rw [parseDecNat_int_frac hdI hdF, hval, hFlen]

theorem renderPair_chars (m : ℤ) (d : ℕ) :
    ∀ c ∈ renderPair m d, isGlyphC c = false ∧ isSpaceC c = false := by
  intro c hc
  have hbody := (renderBody_spec m.natAbs d).2.1
  unfold renderPair at hc
  split at hc
  · rw [List.mem_cons] at hc
    rcases hc with hc | hc
    · subst hc
      exact ⟨by decide, by decide⟩
    · rcases hbody c hc with h | h
      · exact ⟨digit_not_glyph h, digit_not_space h⟩
      · subst h
        exact ⟨by decide, by decide⟩
  · rcases hbody c hc with h | h
    · exact ⟨digit_not_glyph h, digit_not_space h⟩
    · subst h
      exact ⟨by decide, by decide⟩

theorem searchNum_renderPair (m : ℤ) (d : ℕ) :
    searchNum (renderPair m d) = some (renderPair m d, []) := by
  obtain ⟨hne, hchars, hhead, hAt, hparse⟩ := renderBody_spec m.natAbs d
  unfold renderPair
  split
  · apply searchNum_cons_of_some
    rw [show matchNumberAt ('-' :: renderBody m.natAbs d) =
      (if ('-' : Char) = '-' || ('-' : Char) = '+'
       then (matchNumberCore (renderBody m.natAbs d)).map (fun p => ('-' :: p.1, p.2))
       else matchNumberCore ('-' :: renderBody m.natAbs d)) from rfl]
    rw [if_pos (by decide)]
    obtain ⟨c, t, hb⟩ := List.exists_cons_of_ne_nil hne
    have hAt2 := hAt
    rw [hb] at hAt2
    rw [show matchNumberAt (c :: t) =
      (if c = '-' || c = '+'
       then (matchNumberCore t).map (fun p => (c :: p.1, p.2))
       else matchNumberCore (c :: t)) from rfl,
      if_neg (by simp [digit_not_sign (hhead c t hb)])] at hAt2
    rw [hb, hAt2, ← hb]
    rfl
  · obtain ⟨c, t, hb⟩ := List.exists_cons_of_ne_nil hne
    rw [hb]
    apply searchNum_cons_of_some
    rw [← hb]
    exact hAt

theorem parseDec_dash (b : List Char) :
    parseDec ('-' :: b) = (-((parseDecNat b).1 : ℤ), (parseDecNat b).2) := by
  simp [parseDec]

theorem parseDec_digit_head {b : List Char} {c : Char} (h : isDigitC c = true) :
    parseDec (c :: b) = (((parseDecNat (c :: b)).1 : ℤ), (parseDecNat (c :: b)).2) := by
  have h1 : ¬ c = '-' := by
    intro h0
    subst h0
    exact absurd h (by decide)
  have h2 : ¬ c = '+' := by
    intro h0
    subst h0
    exact absurd h (by decide)
  simp [parseDec, h1, h2]

theorem parseDec_renderPair (m : ℤ) (d : ℕ) : parseDec (renderPair m d) = (m, d) := by
  obtain ⟨hne, hchars, hhead, hAt, hparse⟩ := renderBody_spec m.natAbs d
  unfold renderPair
  split
  · rename_i hm
    rw [parseDec_dash, hparse]
    simp only [Prod.mk.injEq]
    exact ⟨by omega, by trivial⟩
  · rename_i hm
    obtain ⟨c, t, hb⟩ := List.exists_cons_of_ne_nil hne
    rw [hb, parseDec_digit_head (hhead c t hb), ← hb, hparse]
    simp only [Prod.mk.injEq]
    exact ⟨by omega, by trivial⟩

/-- Reparsing the plain decimal rendering of a (mantissa, fraction-length)
numeric result recovers exactly its rational value. -/
theorem nfv_render (m : ℤ) (d : ℕ) :
    normalize_financial_value (renderDecimal (m, d)) = ratOfDec (m, d) := by
  have hclean : pyStrip (stripGlyphs (renderPair m d)) = renderPair m d := by
    rw [stripGlyphs_all_neg (fun c hc => (renderPair_chars m d c hc).1),
        pyStrip_all_neg (fun c hc => (renderPair_chars m d c hc).2)]
  show normalizeCore (renderPair m d) = ratOfDec (m, d)
  unfold normalizeCore
  rw [hclean, searchNum_renderPair m d]
  show ratOfDec (parseDec (renderPair m d)) * (multiplierFactor (scaleAfter []) : ℚ) =
    ratOfDec (m, d)
  rw [parseDec_renderPair m d, show scaleAfter ([] : List Char) = none from by decide]
  show ratOfDec (m, d) * ((1 : ℕ) : ℚ) = ratOfDec (m, d)
  simp

/-- C9: `ParsePeriod` is idempotent on its own output — every successful
parse result reparses to itself — and `ParseFinancialValue` is round-trip
stable: for every input, re-running it on the plain decimal string rendering
of its own numeric result returns the same value.  Numeric results are kept
in exact (mantissa, fraction-length) decimal form by `nfvDec`, which agrees
with `normalize_financial_value` by `nfv_eq_pair`. -/
theorem c9_idempotence_roundtrip :
    (∀ t p, extract_quarter t = some p → extract_quarter p = some p) ∧
    (∀ s, normalize_financial_value (renderDecimal (nfvDec s)) =
      normalize_financial_value s) := by
  refine ⟨extract_quarter_idem, ?_⟩
  intro s
  rw [nfv_eq_pair s]
  have h := nfv_render (nfvDec s).1 (nfvDec s).2
  rw [show ((nfvDec s).1, (nfvDec s).2) = nfvDec s from rfl] at h
  exact h

/-- Witness for C9: the canonical period "Q1 2024" reparses to itself, and
the value of "$5.3 million" survives render-and-reparse. -/
theorem c9_idempotence_roundtrip_witness :
    extract_quarter "Q1 2024" = some "Q1 2024" ∧
    normalize_financial_value (renderDecimal (nfvDec "$5.3 million")) =
      normalize_financial_value "$5.3 million" :=
  ⟨c9_idempotence_roundtrip.1 "Q1 2024" "Q1 2024" (by decide),
   c9_idempotence_roundtrip.2 "$5.3 million"⟩

end DFP
